import Mathlib

/-!
Verification of the itinerary day-view projector of the travel-sync
repository (the data model in src/src/types/index.ts together with the
projection logic of the useItineraryItems hook: getDatesBetween,
formatLocalDate, expandLodgingItems, the per-day grouping, the per-day
check-in time, getSortPriority and the within-day comparator).

The definitions are a shallow embedding of the TypeScript source:

* calendar arithmetic models the proleptic Gregorian calendar implemented
  by the JavaScript Date object (new Date("YYYY-MM-DDT12:00:00"),
  setDate(getDate() + 1), getFullYear/getMonth/getDate);
* strings are compared lexicographically by code point, exactly how the
  JavaScript < operator and localeCompare behave on the ASCII date and
  "HH:MM" strings the projector compares;
* the within-day sort models Array.prototype.sort (stable since ES2019)
  as an insertion sort, which is extensionally the unique stable sort for
  the comparator;
* JavaScript truthiness tests on optional strings (item.endDay,
  a.arrivalTime || a.time, checkInItem?.time || '23:59') are modelled
  explicitly: the undefined value and the empty string are both falsy.
-/

namespace TravelSync

/-! ## Lexicographic string order (JavaScript string comparison) -/

/-- Boolean strict lexicographic order on lists of characters by code
point; this is how the JavaScript < operator compares strings (for the
basic-plane ASCII strings the projector handles, UTF-16 code unit order
and code point order agree). -/
def listLtB : List Char → List Char → Bool
  | [], [] => false
  | [], _ :: _ => true
  | _ :: _, [] => false
  | a :: as, b :: bs => if a < b then true else if b < a then false else listLtB as bs

/-- Strict lexicographic order on strings (JavaScript s1 < s2). -/
def strLtB (a b : String) : Bool := listLtB a.data b.data

/-- Lexicographic at-most order on strings (JavaScript s1 <= s2, the
negation of s2 < s1). -/
def strLeB (a b : String) : Bool := ! strLtB b a

theorem listLtB_irrefl : ∀ l : List Char, listLtB l l = false
  | [] => rfl
  | a :: as => by simp [listLtB, listLtB_irrefl as]

theorem listLtB_asymm : ∀ l1 l2 : List Char, listLtB l1 l2 = true → listLtB l2 l1 = false
  | [], [], _ => rfl
  | [], _ :: _, _ => rfl
  | _ :: _, [], h => by simp [listLtB] at h
  | a :: as, b :: bs, h => by
    simp only [listLtB] at h ⊢
    rcases lt_trichotomy a b with hab | hab | hab
    · rw [if_neg (lt_asymm hab), if_pos hab]
    · subst hab
      rw [if_neg (lt_irrefl a), if_neg (lt_irrefl a)] at h ⊢
      exact listLtB_asymm as bs h
    · rw [if_neg (lt_asymm hab), if_pos hab] at h
      exact Bool.noConfusion h

theorem listLtB_trans :
    ∀ l1 l2 l3 : List Char, listLtB l1 l2 = true → listLtB l2 l3 = true → listLtB l1 l3 = true
  | [], _, _ :: _, _, _ => rfl
  | [], l2, [], _, h2 => by cases l2 <;> simp [listLtB] at h2
  | _ :: _, l2, [], h1, h2 => by
    cases l2 with
    | nil => simp [listLtB] at h1
    | cons b bs => simp [listLtB] at h2
  | a :: as, l2, c :: cs, h1, h2 => by
    cases l2 with
    | nil => simp [listLtB] at h1
    | cons b bs =>
      simp only [listLtB] at h1 h2 ⊢
      rcases lt_trichotomy a b with hab | hab | hab <;>
        rcases lt_trichotomy b c with hbc | hbc | hbc
      · rw [if_pos (lt_trans hab hbc)]
      · subst hbc; rw [if_pos hab]
      · rw [if_neg (lt_asymm hbc), if_pos hbc] at h2
        exact Bool.noConfusion h2
      · subst hab; rw [if_pos hbc]
      · subst hab; subst hbc
        rw [if_neg (lt_irrefl a), if_neg (lt_irrefl a)] at h1 h2 ⊢
        exact listLtB_trans as bs cs h1 h2
      · subst hab
        rw [if_neg (lt_asymm hbc), if_pos hbc] at h2
        exact Bool.noConfusion h2
      · rw [if_neg (lt_asymm hab), if_pos hab] at h1
        exact Bool.noConfusion h1
      · rw [if_neg (lt_asymm hab), if_pos hab] at h1
        exact Bool.noConfusion h1
      · rw [if_neg (lt_asymm hab), if_pos hab] at h1
        exact Bool.noConfusion h1

theorem listLtB_eq_of_not :
    ∀ l1 l2 : List Char, listLtB l1 l2 = false → listLtB l2 l1 = false → l1 = l2
  | [], [], _, _ => rfl
  | [], _ :: _, h1, _ => by simp [listLtB] at h1
  | _ :: _, [], _, h2 => by simp [listLtB] at h2
  | a :: as, b :: bs, h1, h2 => by
    simp only [listLtB] at h1 h2
    rcases lt_trichotomy a b with hab | hab | hab
    · rw [if_pos hab] at h1
      exact Bool.noConfusion h1
    · subst hab
      rw [if_neg (lt_irrefl a), if_neg (lt_irrefl a)] at h1 h2
      rw [listLtB_eq_of_not as bs h1 h2]
    · rw [if_pos hab] at h2
      exact Bool.noConfusion h2

theorem listLtB_cotrans :
    ∀ l1 l3 : List Char, listLtB l1 l3 = true →
      ∀ l2 : List Char, listLtB l1 l2 = true ∨ listLtB l2 l3 = true
  | [], [], h, _ => by simp [listLtB] at h
  | [], _ :: _, _, [] => Or.inr rfl
  | [], _ :: _, _, _ :: _ => Or.inl rfl
  | _ :: _, [], h, _ => by simp [listLtB] at h
  | _ :: _, _ :: _, _, [] => Or.inr rfl
  | a :: as, c :: cs, h, b :: bs => by
    simp only [listLtB] at h ⊢
    rcases lt_trichotomy a c with hac | hac | hac
    · rcases lt_trichotomy a b with hab | hab | hab
      · exact Or.inl (by rw [if_pos hab])
      · subst hab
        exact Or.inr (by rw [if_pos hac])
      · exact Or.inr (by rw [if_pos (lt_trans hab hac)])
    · subst hac
      rw [if_neg (lt_irrefl a), if_neg (lt_irrefl a)] at h
      rcases lt_trichotomy a b with hab | hab | hab
      · exact Or.inl (by rw [if_pos hab])
      · subst hab
        rcases listLtB_cotrans as cs h bs with h1 | h1
        · exact Or.inl (by rw [if_neg (lt_irrefl a), if_neg (lt_irrefl a)]; exact h1)
        · exact Or.inr (by rw [if_neg (lt_irrefl a), if_neg (lt_irrefl a)]; exact h1)
      · exact Or.inr (by rw [if_pos hab])
    · rw [if_neg (lt_asymm hac), if_pos hac] at h
      exact Bool.noConfusion h

theorem string_eq_of_data_eq {a b : String} (h : a.data = b.data) : a = b := by
  cases a
  cases b
  exact congrArg String.mk h

theorem strLeB_refl (a : String) : strLeB a a = true := by
  simp [strLeB, strLtB, listLtB_irrefl]

theorem strLeB_trans {a b c : String} (h1 : strLeB a b = true) (h2 : strLeB b c = true) :
    strLeB a c = true := by
  simp only [strLeB, strLtB, Bool.not_eq_true'] at h1 h2 ⊢
  cases h : listLtB c.data a.data with
  | false => rfl
  | true =>
    rcases listLtB_cotrans c.data a.data h b.data with hx | hx
    · rw [h2] at hx
      exact Bool.noConfusion hx
    · rw [h1] at hx
      exact Bool.noConfusion hx

theorem strLeB_total (a b : String) : strLeB a b = true ∨ strLeB b a = true := by
  simp only [strLeB, Bool.not_eq_true']
  by_cases h : strLtB b a = true
  · right
    simpa [strLtB] using listLtB_asymm _ _ (by simpa [strLtB] using h)
  · left
    simpa using h

theorem strLeB_antisymm {a b : String} (h1 : strLeB a b = true) (h2 : strLeB b a = true) :
    a = b := by
  simp only [strLeB, strLtB, Bool.not_eq_true'] at h1 h2
  exact string_eq_of_data_eq (listLtB_eq_of_not _ _ h2 h1)

/-! ## The proleptic Gregorian calendar, as implemented by the JavaScript
Date object. Dates are triples (year, month 1-12, day 1-31); ord maps a
date to its day index counted from 1 January of year 0, which is the
order the numeric time value of a Date object induces on calendar days
(every date is taken at local noon, as the source does). -/

/-- Leap year test of the Gregorian calendar (what Date implements). -/
def isLeap (y : Nat) : Bool := y % 4 == 0 && (y % 100 != 0 || y % 400 == 0)

/-- Number of leap years strictly before year y (counting from year 0,
which is a leap year). -/
def leapsBefore (y : Nat) : Nat := (y + 3) / 4 + (y + 399) / 400 - (y + 99) / 100

/-- Number of days in year y. -/
def daysInYear (y : Nat) : Nat := if isLeap y then 366 else 365

/-- Number of days in all years strictly before year y. -/
def daysBeforeYear (y : Nat) : Nat := 365 * y + leapsBefore y

/-- Length in days of month m (1 = January) of a year with the given
leap flag. -/
def monthLength (leap : Bool) (m : Nat) : Nat :=
  match m with
  | 2 => if leap then 29 else 28
  | 4 => 30
  | 6 => 30
  | 9 => 30
  | 11 => 30
  | _ => 31

/-- Number of days in the months strictly before month m of a year with
the given leap flag (the usual cumulative table). -/
def monthOffset (leap : Bool) (m : Nat) : Nat :=
  (match m with
   | 1 => 0
   | 2 => 31
   | 3 => 59
   | 4 => 90
   | 5 => 120
   | 6 => 151
   | 7 => 181
   | 8 => 212
   | 9 => 243
   | 10 => 273
   | 11 => 304
   | _ => 334)
  + (if leap && decide (3 ≤ m) then 1 else 0)

/-- Calendar date, the value triple a Date object exposes through
getFullYear, getMonth (+1) and getDate. -/
structure Date where
  year : Nat
  month : Nat
  day : Nat
  deriving DecidableEq, Repr

/-- Valid date: month in range and day within the month. The Date
constructor yields an Invalid Date for anything else in the strict ISO
format the source uses. -/
def validDate (d : Date) : Prop :=
  1 ≤ d.month ∧ d.month ≤ 12 ∧ 1 ≤ d.day ∧ d.day ≤ monthLength (isLeap d.year) d.month

instance (d : Date) : Decidable (validDate d) := by
  unfold validDate
  infer_instance

/-- Day index of a date, counted from 1 January of year 0. Two valid
dates compare under ord exactly as the time values of the corresponding
Date objects (taken at local noon) compare. -/
def ord (d : Date) : Nat :=
  daysBeforeYear d.year + monthOffset (isLeap d.year) d.month + (d.day - 1)

/-- Next calendar day, which is what current.setDate(current.getDate() + 1)
computes on the calendar components. -/
def nextDay (d : Date) : Date :=
  if d.day < monthLength (isLeap d.year) d.month then ⟨d.year, d.month, d.day + 1⟩
  else if d.month < 12 then ⟨d.year, d.month + 1, 1⟩
  else ⟨d.year + 1, 1, 1⟩

theorem leapsBefore_succ (y : Nat) :
    leapsBefore (y + 1) = leapsBefore y + (if isLeap y then 1 else 0) := by
  unfold leapsBefore isLeap
  split
  next h =>
    simp only [Bool.and_eq_true, Bool.or_eq_true, beq_iff_eq, bne_iff_ne, ne_eq] at h
    omega
  next h =>
    simp only [Bool.and_eq_true, Bool.or_eq_true, beq_iff_eq, bne_iff_ne, ne_eq, not_and,
      not_or, not_not] at h
    omega

theorem daysBeforeYear_succ (y : Nat) :
    daysBeforeYear (y + 1) = daysBeforeYear y + daysInYear y := by
  unfold daysBeforeYear daysInYear
  rw [leapsBefore_succ]
  cases isLeap y <;> simp <;> omega

theorem monthLength_pos (leap : Bool) (m : Nat) : 1 ≤ monthLength leap m := by
  unfold monthLength
  split <;> (try omega) <;> cases leap <;> decide

theorem monthOffset_succ (leap : Bool) (m : Nat) (h1 : 1 ≤ m) (h2 : m ≤ 11) :
    monthOffset leap (m + 1) = monthOffset leap m + monthLength leap m := by
  interval_cases m <;> cases leap <;> rfl

theorem nextDay_valid_ord (d : Date) (h : validDate d) :
    validDate (nextDay d) ∧ ord (nextDay d) = ord d + 1 := by
  obtain ⟨h1, h2, h3, h4⟩ := h
  unfold nextDay
  by_cases hd : d.day < monthLength (isLeap d.year) d.month
  · rw [if_pos hd]
    constructor
    · refine ⟨?_, ?_, ?_, ?_⟩ <;> dsimp only <;> omega
    · simp only [ord]
      (try dsimp only)
      omega
  · rw [if_neg hd]
    have hdl : d.day = monthLength (isLeap d.year) d.month := by omega
    by_cases hm : d.month < 12
    · rw [if_pos hm]
      constructor
      · refine ⟨?_, ?_, ?_, ?_⟩ <;> (try dsimp only)
        · omega
        · omega
        · omega
        · exact monthLength_pos _ _
      · have hstep := monthOffset_succ (isLeap d.year) d.month h1 (by omega)
        simp only [ord]
        (try dsimp only)
        omega
    · have hm12 : d.month = 12 := by omega
      rw [if_neg hm]
      constructor
      · refine ⟨?_, ?_, ?_, ?_⟩ <;> (try dsimp only)
        · omega
        · omega
        · omega
        · have := monthLength_pos (isLeap (d.year + 1)) 1
          omega
      · simp only [ord]
        (try dsimp only)
        rw [hm12] at hdl ⊢
        rw [daysBeforeYear_succ]
        have hml : monthLength (isLeap d.year) 12 = 31 := rfl
        have hmo : monthOffset (isLeap d.year) 12 =
            334 + (if isLeap d.year then 1 else 0) := by cases isLeap d.year <;> rfl
        have hmo1 : monthOffset (isLeap (d.year + 1)) 1 = 0 := by
          cases isLeap (d.year + 1) <;> rfl
        have hdy : daysInYear d.year = 365 + (if isLeap d.year then 1 else 0) := by
          unfold daysInYear
          cases isLeap d.year <;> simp
        rw [hml] at hdl
        rw [hmo1, hdy, hmo]
        cases isLeap d.year <;> simp <;> omega

/-! ## Date formatting and parsing (formatLocalDate and the Date
constructor applied to the strict ISO string the source builds). -/

/-- Model of String(n).padStart(2, "0") for the month and day numbers. -/
def pad2 (n : Nat) : String := if n < 10 then "0" ++ toString n else toString n

/-- Source formatLocalDate: local year (unpadded, as the template
literal renders getFullYear), then zero-padded month and day. -/
def formatLocalDate (d : Date) : String :=
  toString d.year ++ "-" ++ pad2 d.month ++ "-" ++ pad2 d.day

/-- Numeric value of a decimal digit character. -/
def digitVal (c : Char) : Nat := c.toNat - 48

/-- Build a date after the range check the Date constructor performs on a
strict ISO date-time string: out-of-range month or day yields an Invalid
Date, modelled as none. -/
def mkValidDate (y m d : Nat) : Option Date :=
  if 1 ≤ m ∧ m ≤ 12 ∧ 1 ≤ d ∧ d ≤ monthLength (isLeap y) m then some ⟨y, m, d⟩ else none

/-- Model of new Date(s + "T12:00:00") on the character list of s: the
ECMAScript date-time string format requires exactly YYYY-MM-DD (four
digits, dash, two digits, dash, two digits); anything else, and any
out-of-range component, is an Invalid Date (none), which makes every
comparison on it false. -/
def parseDateChars : List Char → Option Date
  | [y1, y2, y3, y4, s1, m1, m2, s2, d1, d2] =>
    if y1.isDigit && y2.isDigit && y3.isDigit && y4.isDigit && s1 == '-' &&
        m1.isDigit && m2.isDigit && s2 == '-' && d1.isDigit && d2.isDigit then
      mkValidDate (1000 * digitVal y1 + 100 * digitVal y2 + 10 * digitVal y3 + digitVal y4)
        (10 * digitVal m1 + digitVal m2) (10 * digitVal d1 + digitVal d2)
    else none
  | _ => none

/-- Model of new Date(s + "T12:00:00") for the day strings of the source. -/
def parseDate (s : String) : Option Date := parseDateChars s.data

theorem mkValidDate_valid {y m d : Nat} {dt : Date} (h : mkValidDate y m d = some dt) :
    validDate dt := by
  unfold mkValidDate at h
  split at h
  next hv =>
    cases h
    exact hv
  next => exact Option.noConfusion h

theorem parseDate_valid {s : String} {dt : Date} (h : parseDate s = some dt) :
    validDate dt := by
  unfold parseDate parseDateChars at h
  split at h
  · split at h
    · exact mkValidDate_valid h
    · exact Option.noConfusion h
  · exact Option.noConfusion h

/-- Source getDatesBetween while-loop body: while current is at most the
end date, push the formatted current day and advance one calendar day.
The loop is written with explicit fuel; for valid dates the loop condition
fails after exactly (ord endD + 1 - ord cur) iterations (nextDay increases
ord by one each step), so with that fuel the function equals the
unbounded JavaScript loop. -/
def datesLoop (fuel : Nat) (cur endD : Date) : List String :=
  match fuel with
  | 0 => []
  | n + 1 => if ord cur ≤ ord endD then formatLocalDate cur :: datesLoop n (nextDay cur) endD else []

/-- Source getDatesBetween: parse both day strings as the Date
constructor does; an Invalid Date on either side makes every loop
comparison false and yields the empty enumeration, as does an end date
before the start date. -/
def getDatesBetween (startDate endDate : String) : List String :=
  match parseDate startDate, parseDate endDate with
  | some ds, some de => datesLoop (ord de + 1 - ord ds) ds de
  | _, _ => []

theorem datesLoop_eq (fuel : Nat) :
    ∀ cur endD : Date, validDate cur → fuel = ord endD + 1 - ord cur →
      datesLoop fuel cur endD =
        (List.range fuel).map (fun i => formatLocalDate (nextDay^[i] cur)) := by
  induction fuel with
  | zero => intro cur endD _ _; rfl
  | succ n ih =>
    intro cur endD hval hfuel
    have hle : ord cur ≤ ord endD := by omega
    obtain ⟨hv2, hord⟩ := nextDay_valid_ord cur hval
    unfold datesLoop
    rw [if_pos hle, ih (nextDay cur) endD hv2 (by omega), List.range_succ_eq_map,
      List.map_cons, List.map_map]
    refine congrArg₂ _ rfl (List.map_congr_left ?_)
    intro i _
    simp only [Function.comp_apply, Function.iterate_succ_apply]

theorem getDatesBetween_eq {s e : String} {ds de : Date}
    (hs : parseDate s = some ds) (he : parseDate e = some de) :
    getDatesBetween s e =
      (List.range (ord de + 1 - ord ds)).map (fun i => formatLocalDate (nextDay^[i] ds)) := by
  unfold getDatesBetween
  rw [hs, he]
  exact datesLoop_eq _ _ _ (parseDate_valid hs) rfl

theorem getDatesBetween_length {s e : String} {ds de : Date}
    (hs : parseDate s = some ds) (he : parseDate e = some de) :
    (getDatesBetween s e).length = ord de + 1 - ord ds := by
  rw [getDatesBetween_eq hs he, List.length_map, List.length_range]

/-! ## Data model (src/src/types/index.ts) -/

/-- Union of the two literal values of the type field. -/
inductive ItemType where
  | activity
  | flight
  deriving DecidableEq, Repr

/-- Union of the literal values of the optional category field. -/
inductive Category where
  | sightseeing
  | food
  | lodging
  | nature
  | shopping
  | transport
  | entertainment
  deriving DecidableEq, Repr

/-- Union of the literal values of LodgingPhase. -/
inductive LodgingPhase where
  | checkIn
  | staying
  | checkOut
  deriving DecidableEq, Repr

/-- ItineraryItem record. Optional string fields are Option String, with
the empty string a further falsy value JavaScript treats like absence
where the source tests truthiness. The numeric map coordinates and the
remaining enrichment payload are opaque passthrough data the projector
never reads and are not modelled. -/
structure ItineraryItem where
  id : String
  type : ItemType
  category : Option Category
  day : String
  endDay : Option String
  time : String
  location : String
  notes : String
  completed : Bool
  arrivalLocation : Option String
  arrivalTime : Option String
  airline : Option String
  flightNumber : Option String
  deriving DecidableEq, Repr

/-- DisplayItineraryItem extends ItineraryItem with the display
metadata the expansion adds. -/
structure DisplayItineraryItem extends ItineraryItem where
  lodgingPhase : Option LodgingPhase
  displayDay : String
  isVirtual : Bool
  deriving DecidableEq, Repr

/-! ## Lodging expansion (expandLodgingItems) -/

/-- Source test item.category === 'lodging' && item.endDay && item.endDay
!== item.day; an absent endDay and the empty string are both falsy. -/
def isMultiDayLodging (item : ItineraryItem) : Bool :=
  item.category == some Category.lodging &&
    match item.endDay with
    | none => false
    | some e => !(e == "") && !(e == item.day)

/-- Source stayDates.forEach((date, index) => ...): phase check-in at
index 0, check-out at the last index, staying in between; only the first
instance is not virtual. The parameter i is the index of the first
element of the remaining date list, total the length of the whole
enumeration. -/
def stayItems (item : ItineraryItem) (total : Nat) : Nat → List String → List DisplayItineraryItem
  | _, [] => []
  | i, date :: rest =>
    { toItineraryItem := item
      displayDay := date
      lodgingPhase := some (if i = 0 then LodgingPhase.checkIn
        else if i = total - 1 then LodgingPhase.checkOut else LodgingPhase.staying)
      isVirtual := i != 0 } :: stayItems item total (i + 1) rest

/-- Expansion of a single record: the multi-day lodging path enumerates
the stay dates and emits one item per date, every other record is passed
through on its own day. -/
def expandItem (item : ItineraryItem) : List DisplayItineraryItem :=
  if isMultiDayLodging item then
    stayItems item (getDatesBetween item.day (item.endDay.getD "")).length 0
      (getDatesBetween item.day (item.endDay.getD ""))
  else
    [{ toItineraryItem := item
       displayDay := item.day
       lodgingPhase := none
       isVirtual := false }]

/-- Source expandLodgingItems: concatenation of the per-record
expansions in input order. -/
def expandLodgingItems (items : List ItineraryItem) : List DisplayItineraryItem :=
  items.flatMap expandItem

theorem stayItems_length (item : ItineraryItem) (total : Nat) :
    ∀ (i : Nat) (dates : List String), (stayItems item total i dates).length = dates.length := by
  intro i dates
  induction dates generalizing i with
  | nil => rfl
  | cons d rest ih => simp [stayItems, ih]

theorem stayItems_get (item : ItineraryItem) (total : Nat) :
    ∀ (i : Nat) (dates : List String) (j : Nat) (hj : j < (stayItems item total i dates).length),
      (stayItems item total i dates).get ⟨j, hj⟩ =
        { toItineraryItem := item
          displayDay := dates.get ⟨j, by rw [← stayItems_length item total i]; exact hj⟩
          lodgingPhase := some (if i + j = 0 then LodgingPhase.checkIn
            else if i + j = total - 1 then LodgingPhase.checkOut else LodgingPhase.staying)
          isVirtual := (i + j) != 0 } := by
  intro i dates
  induction dates generalizing i with
  | nil => intro j hj; simp [stayItems] at hj
  | cons d rest ih =>
    intro j hj
    cases j with
    | zero => simp [stayItems]
    | succ k =>
      have hk : k < (stayItems item total (i + 1) rest).length := by
        simpa [stayItems] using hj
      have := ih (i + 1) k hk
      simp only [stayItems, List.get_cons_succ, this]
      have harith : i + 1 + k = i + (k + 1) := by omega
      rw [harith]

/-! ## Grouping by display day (the itemsByDay reduce) -/

/-- One step of the grouping reduce: push the item onto the bucket of its
displayDay, creating the bucket at the end on first occurrence (object
keys iterate in insertion order for these non-index string keys). -/
def insertGrouped (acc : List (String × List DisplayItineraryItem)) (it : DisplayItineraryItem) :
    List (String × List DisplayItineraryItem) :=
  match acc with
  | [] => [(it.displayDay, [it])]
  | (k, v) :: rest =>
    if k = it.displayDay then (k, v ++ [it]) :: rest else (k, v) :: insertGrouped rest it

/-- Grouping of the expanded display items by displayDay, keys in first
occurrence order and each bucket in input order. -/
def groupByDay (items : List DisplayItineraryItem) :
    List (String × List DisplayItineraryItem) :=
  items.foldl insertGrouped []

/-! ## Within-day ordering (check-in time, getSortPriority and the
comparator of the per-day sort) -/

/-- JavaScript a || b on an optional string: the empty string and the
undefined value both fall through to the default. -/
def jsOr (o : Option String) (dflt : String) : String :=
  match o with
  | some t => if t = "" then dflt else t
  | none => dflt

/-- Check-in time of one day's bucket, computed before the sort: the time
of the first item whose lodgingPhase is check-in, with the sentinel
"23:59" if there is none; the || also replaces an empty time field of
the found item by the sentinel. -/
def dayCheckInTime (dayItems : List DisplayItineraryItem) : String :=
  match dayItems.find? (fun it => it.lodgingPhase == some LodgingPhase.checkIn) with
  | some checkInItem => if checkInItem.time = "" then "23:59" else checkInItem.time
  | none => "23:59"

/-- Source flight landing time item.arrivalTime || item.time. -/
def flightLanding (it : DisplayItineraryItem) : String := jsOr it.arrivalTime it.time

/-- Source getSortPriority, with the checkInTime of the enclosing day
closed over: check-out 0; flights landing strictly before check-in 1;
check-in 2; staying 4; everything else 3. -/
def getSortPriority (checkInTime : String) (item : DisplayItineraryItem) : Nat :=
  if item.lodgingPhase = some LodgingPhase.checkOut then 0
  else if item.type = ItemType.flight ∧ strLtB (flightLanding item) checkInTime = true then 1
  else if item.lodgingPhase = some LodgingPhase.checkIn then 2
  else if item.lodgingPhase = some LodgingPhase.staying then 4
  else 3

/-- Effective time used by the tie-break of the comparator: arrival time
(falling back to time) for flights, time otherwise. -/
def effTime (it : DisplayItineraryItem) : String :=
  if it.type = ItemType.flight then jsOr it.arrivalTime it.time else it.time

/-- The total preorder the source comparator induces: its comparator
returns a nonpositive number exactly when the priorities are ordered
strictly, or are equal and the effective times compare at most
(localeCompare on these ASCII strings is code point order). -/
def itemRel (checkInTime : String) (a b : DisplayItineraryItem) : Prop :=
  getSortPriority checkInTime a < getSortPriority checkInTime b ∨
    (getSortPriority checkInTime a = getSortPriority checkInTime b ∧
      strLeB (effTime a) (effTime b) = true)

instance (checkInTime : String) : DecidableRel (itemRel checkInTime) := fun a b => by
  unfold itemRel
  infer_instance

/-- One day's bucket after the in-place sort: a stable sort by the
comparator (Array.prototype.sort is stable since ES2019, and a stable
sort for a total preorder is extensionally unique, so insertion sort is
a faithful model). The check-in time is computed from the bucket before
sorting, as the source does. -/
def sortDayItems (dayItems : List DisplayItineraryItem) : List DisplayItineraryItem :=
  List.insertionSort (itemRel (dayCheckInTime dayItems)) dayItems

/-- The grouped and ordered projection itemsByDay: buckets keyed by
displayDay in first-occurrence order, each bucket sorted by the day
comparator. -/
def itemsByDay (items : List ItineraryItem) : List (String × List DisplayItineraryItem) :=
  (groupByDay (expandLodgingItems items)).map (fun p => (p.1, sortDayItems p.2))

/-- Lexicographic at-most order as a relation, the order
Object.keys(...).sort() uses on the day keys. -/
def strLeRel (a b : String) : Prop := strLeB a b = true

instance : DecidableRel strLeRel := fun a b => by
  unfold strLeRel
  infer_instance

/-- Source sortedDays: the day keys of the grouping in ascending lexical
order. -/
def sortedDays (items : List ItineraryItem) : List String :=
  List.insertionSort strLeRel ((groupByDay (expandLodgingItems items)).map Prod.fst)

/-! ## Order-theoretic facts about the comparator and the sort -/

theorem itemRel_total (ct : String) (a b : DisplayItineraryItem) :
    itemRel ct a b ∨ itemRel ct b a := by
  unfold itemRel
  rcases Nat.lt_trichotomy (getSortPriority ct a) (getSortPriority ct b) with h | h | h
  · exact Or.inl (Or.inl h)
  · rcases strLeB_total (effTime a) (effTime b) with ht | ht
    · exact Or.inl (Or.inr ⟨h, ht⟩)
    · exact Or.inr (Or.inr ⟨h.symm, ht⟩)
  · exact Or.inr (Or.inl h)

theorem itemRel_trans {ct : String} {a b c : DisplayItineraryItem}
    (h1 : itemRel ct a b) (h2 : itemRel ct b c) : itemRel ct a c := by
  unfold itemRel at h1 h2 ⊢
  rcases h1 with h1 | ⟨h1e, h1t⟩ <;> rcases h2 with h2 | ⟨h2e, h2t⟩
  · exact Or.inl (by omega)
  · exact Or.inl (by omega)
  · exact Or.inl (by omega)
  · exact Or.inr ⟨h1e.trans h2e, strLeB_trans h1t h2t⟩

theorem itemRel_prio_le {ct : String} {a b : DisplayItineraryItem} (h : itemRel ct a b) :
    getSortPriority ct a ≤ getSortPriority ct b := by
  rcases h with h | ⟨h, _⟩ <;> omega

theorem sortDayItems_sorted (L : List DisplayItineraryItem) :
    List.Sorted (itemRel (dayCheckInTime L)) (sortDayItems L) := by
  haveI : IsTotal DisplayItineraryItem (itemRel (dayCheckInTime L)) := ⟨itemRel_total _⟩
  haveI : IsTrans DisplayItineraryItem (itemRel (dayCheckInTime L)) :=
    ⟨fun _ _ _ => itemRel_trans⟩
  exact List.sorted_insertionSort _ _

theorem sortDayItems_perm (L : List DisplayItineraryItem) : (sortDayItems L).Perm L :=
  List.perm_insertionSort _ _

theorem sortDayItems_index_lt (L : List DisplayItineraryItem)
    (i j : Nat) (hi : i < (sortDayItems L).length) (hj : j < (sortDayItems L).length)
    (hlt : getSortPriority (dayCheckInTime L) ((sortDayItems L).get ⟨i, hi⟩) <
      getSortPriority (dayCheckInTime L) ((sortDayItems L).get ⟨j, hj⟩)) : i < j := by
  by_contra hij
  have hs := sortDayItems_sorted L
  rw [List.Sorted, List.pairwise_iff_get] at hs
  rcases Nat.lt_or_ge j i with hji | hji
  · have := itemRel_prio_le (hs ⟨j, hj⟩ ⟨i, hi⟩ hji)
    omega
  · have heq : i = j := by omega
    subst heq
    omega

theorem filter_orderedInsert_pos {α : Type} (r : α → α → Prop) [DecidableRel r]
    (p : α → Bool) (x : α) :
    ∀ l : List α, p x = true → (∀ y ∈ l, p y = true → r x y) →
      (l.orderedInsert r x).filter p = x :: l.filter p
  | [], hx, _ => by simp [List.orderedInsert, hx]
  | y :: ys, hx, hmut => by
    rw [List.orderedInsert]
    by_cases hr : r x y
    · rw [if_pos hr]
      simp [List.filter_cons, hx]
    · rw [if_neg hr]
      have hpy : p y = false := by
        cases hpy : p y
        · rfl
        · exact absurd (hmut y (by simp) hpy) hr
      have hrec := filter_orderedInsert_pos r p x ys hx
        (fun z hz hpz => hmut z (by simp [hz]) hpz)
      simp [List.filter_cons, hpy, hrec]

theorem filter_orderedInsert_neg {α : Type} (r : α → α → Prop) [DecidableRel r]
    (p : α → Bool) (x : α) :
    ∀ l : List α, p x = false → (l.orderedInsert r x).filter p = l.filter p
  | [], hx => by simp [List.orderedInsert, hx]
  | y :: ys, hx => by
    rw [List.orderedInsert]
    by_cases hr : r x y
    · rw [if_pos hr]
      simp [List.filter_cons, hx]
    · rw [if_neg hr]
      have hrec := filter_orderedInsert_neg r p x ys hx
      simp [List.filter_cons, hrec]

theorem filter_insertionSort {α : Type} (r : α → α → Prop) [DecidableRel r]
    (p : α → Bool) (hmut : ∀ a b : α, p a = true → p b = true → r a b) :
    ∀ l : List α, (List.insertionSort r l).filter p = l.filter p
  | [] => rfl
  | x :: xs => by
    rw [List.insertionSort]
    cases hx : p x
    · rw [filter_orderedInsert_neg r p x _ hx, filter_insertionSort r p hmut xs,
        List.filter_cons, if_neg (by simp [hx])]
    · rw [filter_orderedInsert_pos r p x _ hx
        (fun y _ hpy => hmut x y hx hpy), filter_insertionSort r p hmut xs,
        List.filter_cons, if_pos (by simp [hx])]

/-! ## Facts about the grouping -/

theorem insertGrouped_keys (it : DisplayItineraryItem) :
    ∀ acc, (insertGrouped acc it).map Prod.fst =
      if it.displayDay ∈ acc.map Prod.fst then acc.map Prod.fst
      else acc.map Prod.fst ++ [it.displayDay]
  | [] => by simp [insertGrouped]
  | (k, v) :: rest => by
    rw [insertGrouped]
    by_cases hk : k = it.displayDay
    · rw [if_pos hk]
      simp [hk]
    · rw [if_neg hk]
      simp only [List.map_cons, insertGrouped_keys it rest]
      have hne : ¬ it.displayDay = k := fun h => hk h.symm
      by_cases hm : it.displayDay ∈ rest.map Prod.fst
      · rw [if_pos hm, if_pos (by simp [hm])]
      · rw [if_neg hm, if_neg (by simp [hne, hm])]
        simp

theorem insertGrouped_mem_keys (it : DisplayItineraryItem) (acc : List (String × List DisplayItineraryItem)) (k : String) :
    k ∈ (insertGrouped acc it).map Prod.fst ↔
      k ∈ acc.map Prod.fst ∨ k = it.displayDay := by
  rw [insertGrouped_keys]
  by_cases hm : it.displayDay ∈ acc.map Prod.fst
  · rw [if_pos hm]
    constructor
    · exact fun h => Or.inl h
    · rintro (h | h)
      · exact h
      · exact h ▸ hm
  · rw [if_neg hm]
    simp

theorem insertGrouped_nodup_keys (it : DisplayItineraryItem)
    (acc : List (String × List DisplayItineraryItem))
    (h : (acc.map Prod.fst).Nodup) : ((insertGrouped acc it).map Prod.fst).Nodup := by
  rw [insertGrouped_keys]
  by_cases hm : it.displayDay ∈ acc.map Prod.fst
  · rw [if_pos hm]
    exact h
  · rw [if_neg hm]
    simp [List.nodup_append, h, hm]

theorem insertGrouped_keyed (it : DisplayItineraryItem) :
    ∀ acc, (∀ p ∈ acc, ∀ x ∈ p.2, x.displayDay = p.1) →
      ∀ p ∈ insertGrouped acc it, ∀ x ∈ p.2, x.displayDay = p.1
  | [], _, p, hp, x, hx => by
    simp only [insertGrouped, List.mem_singleton] at hp
    subst hp
    simp only [List.mem_singleton] at hx
    subst hx
    rfl
  | (k, v) :: rest, h, p, hp, x, hx => by
    rw [insertGrouped] at hp
    by_cases hk : k = it.displayDay
    · rw [if_pos hk] at hp
      rcases List.mem_cons.mp hp with hp | hp
      · subst hp
        rcases List.mem_append.mp hx with hx | hx
        · exact h (k, v) (by simp) x hx
        · simp only [List.mem_singleton] at hx
          subst hx
          exact hk.symm
      · exact h p (by simp [hp]) x hx
    · rw [if_neg hk] at hp
      rcases List.mem_cons.mp hp with hp | hp
      · subst hp
        exact h (k, v) (by simp) x hx
      · exact insertGrouped_keyed it rest (fun q hq => h q (by simp [hq])) p hp x hx

theorem insertGrouped_nonempty (it : DisplayItineraryItem) :
    ∀ acc, (∀ p ∈ acc, p.2 ≠ []) → ∀ p ∈ insertGrouped acc it, p.2 ≠ []
  | [], _, p, hp => by
    simp only [insertGrouped, List.mem_singleton] at hp
    subst hp
    simp
  | (k, v) :: rest, h, p, hp => by
    rw [insertGrouped] at hp
    by_cases hk : k = it.displayDay
    · rw [if_pos hk] at hp
      rcases List.mem_cons.mp hp with hp | hp
      · subst hp
        simp
      · exact h p (by simp [hp])
    · rw [if_neg hk] at hp
      rcases List.mem_cons.mp hp with hp | hp
      · subst hp
        exact h (k, v) (by simp)
      · exact insertGrouped_nonempty it rest (fun q hq => h q (by simp [hq])) p hp

theorem insertGrouped_flat (it : DisplayItineraryItem) :
    ∀ acc, ((insertGrouped acc it).flatMap Prod.snd).Perm
      (acc.flatMap Prod.snd ++ [it])
  | [] => by simp [insertGrouped]
  | (k, v) :: rest => by
    rw [insertGrouped]
    by_cases hk : k = it.displayDay
    · rw [if_pos hk]
      simp only [List.flatMap_cons, List.append_assoc]
      exact List.Perm.append_left v List.perm_append_comm
    · rw [if_neg hk]
      simp only [List.flatMap_cons, List.append_assoc]
      exact List.Perm.append_left v (insertGrouped_flat it rest)

theorem groupFold_flat (items : List DisplayItineraryItem) :
    ∀ acc, ((items.foldl insertGrouped acc).flatMap Prod.snd).Perm
      (acc.flatMap Prod.snd ++ items) := by
  induction items with
  | nil => intro acc; simp
  | cons it rest ih =>
    intro acc
    rw [List.foldl_cons]
    refine (ih (insertGrouped acc it)).trans ?_
    refine (List.Perm.append_right rest (insertGrouped_flat it acc)).trans ?_
    simp [List.append_assoc]

theorem groupFold_mem_keys (k : String) (items : List DisplayItineraryItem) :
    ∀ acc, k ∈ ((items.foldl insertGrouped acc).map Prod.fst) ↔
      k ∈ acc.map Prod.fst ∨ k ∈ items.map (fun it => it.displayDay) := by
  induction items with
  | nil => intro acc; simp
  | cons it rest ih =>
    intro acc
    rw [List.foldl_cons, ih (insertGrouped acc it), insertGrouped_mem_keys]
    simp only [List.map_cons, List.mem_cons]
    tauto

theorem groupFold_nodup_keys (items : List DisplayItineraryItem) :
    ∀ acc, ((acc.map Prod.fst).Nodup) →
      (((items.foldl insertGrouped acc).map Prod.fst).Nodup) := by
  induction items with
  | nil => intro acc h; exact h
  | cons it rest ih =>
    intro acc h
    rw [List.foldl_cons]
    exact ih _ (insertGrouped_nodup_keys it acc h)

theorem groupFold_keyed (items : List DisplayItineraryItem) :
    ∀ acc, (∀ p ∈ acc, ∀ x ∈ p.2, x.displayDay = p.1) →
      ∀ p ∈ items.foldl insertGrouped acc, ∀ x ∈ p.2, x.displayDay = p.1 := by
  induction items with
  | nil => intro acc h; exact h
  | cons it rest ih =>
    intro acc h
    rw [List.foldl_cons]
    exact ih _ (insertGrouped_keyed it acc h)

theorem groupFold_nonempty (items : List DisplayItineraryItem) :
    ∀ acc, (∀ p ∈ acc, p.2 ≠ []) → ∀ p ∈ items.foldl insertGrouped acc, p.2 ≠ [] := by
  induction items with
  | nil => intro acc h; exact h
  | cons it rest ih =>
    intro acc h
    rw [List.foldl_cons]
    exact ih _ (insertGrouped_nonempty it acc h)

theorem groupByDay_flat (items : List DisplayItineraryItem) :
    ((groupByDay items).flatMap Prod.snd).Perm items := by
  simpa using groupFold_flat items []

theorem groupByDay_mem_keys (k : String) (items : List DisplayItineraryItem) :
    k ∈ (groupByDay items).map Prod.fst ↔ k ∈ items.map (fun it => it.displayDay) := by
  unfold groupByDay
  rw [groupFold_mem_keys]
  simp

theorem groupByDay_nodup_keys (items : List DisplayItineraryItem) :
    ((groupByDay items).map Prod.fst).Nodup :=
  groupFold_nodup_keys items [] (by simp)

theorem groupByDay_keyed (items : List DisplayItineraryItem) :
    ∀ p ∈ groupByDay items, ∀ x ∈ p.2, x.displayDay = p.1 :=
  groupFold_keyed items [] (by simp)

theorem groupByDay_nonempty (items : List DisplayItineraryItem) :
    ∀ p ∈ groupByDay items, p.2 ≠ [] :=
  groupFold_nonempty items [] (by simp)

/-! ## Invariance of the projection under the completed flag -/

/-- Forget the completed flag of a record. -/
def eraseCompleted (r : ItineraryItem) : ItineraryItem := { r with completed := false }

/-- Forget the completed flag of a display item. -/
def eraseCompletedD (d : DisplayItineraryItem) : DisplayItineraryItem :=
  { d with completed := false }

theorem stayItems_erase (item : ItineraryItem) (total : Nat) :
    ∀ (i : Nat) (dates : List String),
      stayItems (eraseCompleted item) total i dates =
        (stayItems item total i dates).map eraseCompletedD := by
  intro i dates
  induction dates generalizing i with
  | nil => rfl
  | cons d rest ih => simp only [stayItems, List.map_cons, ih (i + 1)]; rfl

theorem expandItem_erase (r : ItineraryItem) :
    expandItem (eraseCompleted r) = (expandItem r).map eraseCompletedD := by
  have hm : isMultiDayLodging (eraseCompleted r) = isMultiDayLodging r := rfl
  unfold expandItem
  rw [hm]
  by_cases h : isMultiDayLodging r
  · rw [if_pos h, if_pos h]
    exact stayItems_erase r _ 0 _
  · rw [if_neg h, if_neg h]
    rfl

theorem expandLodgingItems_erase (items : List ItineraryItem) :
    expandLodgingItems (items.map eraseCompleted) =
      (expandLodgingItems items).map eraseCompletedD := by
  unfold expandLodgingItems
  induction items with
  | nil => rfl
  | cons r rest ih =>
    simp only [List.map_cons, List.flatMap_cons, List.map_append, ih, expandItem_erase]

theorem insertGrouped_erase (it : DisplayItineraryItem) :
    ∀ acc, insertGrouped (acc.map (fun p => (p.1, p.2.map eraseCompletedD)))
        (eraseCompletedD it) =
      (insertGrouped acc it).map (fun p => (p.1, p.2.map eraseCompletedD))
  | [] => rfl
  | (k, v) :: rest => by
    have hd : (eraseCompletedD it).displayDay = it.displayDay := rfl
    simp only [List.map_cons, insertGrouped, hd]
    by_cases hk : k = it.displayDay
    · rw [if_pos hk, if_pos hk]
      simp
    · rw [if_neg hk, if_neg hk]
      simp only [List.map_cons, insertGrouped_erase it rest]

theorem groupByDay_erase (items : List DisplayItineraryItem) :
    groupByDay (items.map eraseCompletedD) =
      (groupByDay items).map (fun p => (p.1, p.2.map eraseCompletedD)) := by
  unfold groupByDay
  have hgen : ∀ (l : List DisplayItineraryItem) acc,
      (l.map eraseCompletedD).foldl insertGrouped
          (acc.map (fun p => (p.1, p.2.map eraseCompletedD))) =
        (l.foldl insertGrouped acc).map (fun p => (p.1, p.2.map eraseCompletedD)) := by
    intro l
    induction l with
    | nil => intro acc; rfl
    | cons x xs ih =>
      intro acc
      simp only [List.map_cons, List.foldl_cons, insertGrouped_erase x acc]
      exact ih (insertGrouped acc x)
  simpa using hgen items []

theorem dayCheckInTime_erase (L : List DisplayItineraryItem) :
    dayCheckInTime (L.map eraseCompletedD) = dayCheckInTime L := by
  unfold dayCheckInTime
  induction L with
  | nil => rfl
  | cons x xs ih =>
    simp only [List.map_cons, List.find?]
    have hex : ((eraseCompletedD x).lodgingPhase == some LodgingPhase.checkIn) =
        (x.lodgingPhase == some LodgingPhase.checkIn) := rfl
    rw [hex]
    cases hx : (x.lodgingPhase == some LodgingPhase.checkIn)
    · exact ih
    · rfl

theorem getSortPriority_erase (ct : String) (it : DisplayItineraryItem) :
    getSortPriority ct (eraseCompletedD it) = getSortPriority ct it := rfl

theorem effTime_erase (it : DisplayItineraryItem) :
    effTime (eraseCompletedD it) = effTime it := rfl

theorem sortDayItems_erase (L : List DisplayItineraryItem) :
    sortDayItems (L.map eraseCompletedD) = (sortDayItems L).map eraseCompletedD := by
  unfold sortDayItems
  rw [dayCheckInTime_erase]
  exact (List.map_insertionSort (itemRel (dayCheckInTime L)) (itemRel (dayCheckInTime L))
    eraseCompletedD L (fun a _ b _ => Iff.rfl)).symm

theorem itemsByDay_erase (items : List ItineraryItem) :
    itemsByDay (items.map eraseCompleted) =
      (itemsByDay items).map (fun p => (p.1, p.2.map eraseCompletedD)) := by
  unfold itemsByDay
  rw [expandLodgingItems_erase, groupByDay_erase, List.map_map, List.map_map]
  refine List.map_congr_left ?_
  intro p _
  simp only [Function.comp_apply]
  rw [sortDayItems_erase]

theorem sortedDays_erase (items : List ItineraryItem) :
    sortedDays (items.map eraseCompleted) = sortedDays items := by
  unfold sortedDays
  rw [expandLodgingItems_erase, groupByDay_erase, List.map_map]
  rfl

/-! ## Facts about the sorted day list -/

theorem sortedDays_sorted (items : List ItineraryItem) :
    List.Sorted strLeRel (sortedDays items) := by
  haveI : IsTotal String strLeRel := ⟨fun a b => strLeB_total a b⟩
  haveI : IsTrans String strLeRel := ⟨fun _ _ _ => strLeB_trans⟩
  exact List.sorted_insertionSort _ _

theorem sortedDays_perm (items : List ItineraryItem) :
    (sortedDays items).Perm ((groupByDay (expandLodgingItems items)).map Prod.fst) :=
  List.perm_insertionSort _ _

theorem strLtB_of_le_ne {a b : String} (hle : strLeB a b = true) (hne : a ≠ b) :
    strLtB a b = true := by
  cases h : strLtB a b
  · simp only [strLeB, Bool.not_eq_true'] at hle
    exact absurd (string_eq_of_data_eq (listLtB_eq_of_not _ _ h hle)) hne
  · rfl

theorem sortedDays_strict (items : List ItineraryItem) :
    List.Pairwise (fun a b => strLtB a b = true) (sortedDays items) := by
  have hnd : (sortedDays items).Nodup :=
    (sortedDays_perm items).symm.nodup (groupByDay_nodup_keys _)
  have hs : List.Pairwise strLeRel (sortedDays items) := sortedDays_sorted items
  have := hs.and hnd
  exact this.imp (fun h => strLtB_of_le_ne h.1 h.2)

/-! ## Injectivity of the day index on valid dates -/

theorem daysBeforeYear_mono {y1 y2 : Nat} (h : y1 ≤ y2) :
    daysBeforeYear y1 ≤ daysBeforeYear y2 := by
  induction y2, h using Nat.le_induction with
  | base => exact le_refl _
  | succ y2 hle ih =>
    refine ih.trans ?_
    rw [daysBeforeYear_succ]
    omega

theorem monthOffset_day_lt_year (leap : Bool) (m d : Nat) (h1 : 1 ≤ m) (h2 : m ≤ 12)
    (h3 : 1 ≤ d) (h4 : d ≤ monthLength leap m) :
    monthOffset leap m + (d - 1) < (if leap then 366 else 365) := by
  have : monthOffset leap m + monthLength leap m ≤ (if leap then 366 else 365) := by
    interval_cases m <;> cases leap <;> decide
  omega

theorem monthOffset_mono (leap : Bool) (m1 m2 : Nat) (h1 : 1 ≤ m1) (h2 : m1 < m2)
    (h3 : m2 ≤ 12) :
    monthOffset leap m1 + monthLength leap m1 ≤ monthOffset leap m2 := by
  have h4 : m1 ≤ 11 := by omega
  interval_cases m1 <;> interval_cases m2 <;> cases leap <;> decide

theorem ord_lt_of_lex {d1 d2 : Date} (hv1 : validDate d1) (hv2 : validDate d2)
    (h : d1.year < d2.year ∨ (d1.year = d2.year ∧ d1.month < d2.month) ∨
      (d1.year = d2.year ∧ d1.month = d2.month ∧ d1.day < d2.day)) :
    ord d1 < ord d2 := by
  obtain ⟨ha1, ha2, ha3, ha4⟩ := hv1
  obtain ⟨hb1, hb2, hb3, hb4⟩ := hv2
  unfold ord
  rcases h with h | ⟨hy, h⟩ | ⟨hy, hm, h⟩
  · have hlt := monthOffset_day_lt_year (isLeap d1.year) d1.month d1.day ha1 ha2 ha3 ha4
    have hstep : daysBeforeYear (d1.year + 1) = daysBeforeYear d1.year + daysInYear d1.year :=
      daysBeforeYear_succ _
    have hmono : daysBeforeYear (d1.year + 1) ≤ daysBeforeYear d2.year :=
      daysBeforeYear_mono h
    unfold daysInYear at hstep
    omega
  · rw [hy]
    have hmono := monthOffset_mono (isLeap d2.year) d1.month d2.month ha1 h hb2
    rw [hy] at ha4
    omega
  · rw [hy, hm]
    omega

theorem ord_inj {d1 d2 : Date} (hv1 : validDate d1) (hv2 : validDate d2)
    (h : ord d1 = ord d2) : d1 = d2 := by
  rcases Nat.lt_trichotomy d1.year d2.year with hy | hy | hy
  · exact absurd h (by have := ord_lt_of_lex hv1 hv2 (Or.inl hy); omega)
  · rcases Nat.lt_trichotomy d1.month d2.month with hm | hm | hm
    · exact absurd h (by have := ord_lt_of_lex hv1 hv2 (Or.inr (Or.inl ⟨hy, hm⟩)); omega)
    · rcases Nat.lt_trichotomy d1.day d2.day with hd | hd | hd
      · exact absurd h
          (by have := ord_lt_of_lex hv1 hv2 (Or.inr (Or.inr ⟨hy, hm, hd⟩)); omega)
      · cases d1
        cases d2
        simp only at hy hm hd
        rw [hy, hm, hd]
      · exact absurd h
          (by have := ord_lt_of_lex hv2 hv1 (Or.inr (Or.inr ⟨hy.symm, hm.symm, hd⟩)); omega)
    · exact absurd h (by have := ord_lt_of_lex hv2 hv1 (Or.inr (Or.inl ⟨hy.symm, hm⟩)); omega)
  · exact absurd h (by have := ord_lt_of_lex hv2 hv1 (Or.inl hy); omega)

theorem iterate_nextDay (n : Nat) (d : Date) (hv : validDate d) :
    validDate (nextDay^[n] d) ∧ ord (nextDay^[n] d) = ord d + n := by
  induction n with
  | zero => exact ⟨hv, rfl⟩
  | succ k ih =>
    rw [Function.iterate_succ_apply']
    obtain ⟨ihv, iho⟩ := ih
    obtain ⟨hv2, ho2⟩ := nextDay_valid_ord _ ihv
    exact ⟨hv2, by omega⟩

theorem iterate_nextDay_reaches {ds de : Date} (hv1 : validDate ds) (hv2 : validDate de)
    (h : ord ds ≤ ord de) : nextDay^[ord de - ord ds] ds = de := by
  obtain ⟨hv3, ho3⟩ := iterate_nextDay (ord de - ord ds) ds hv1
  exact ord_inj hv3 hv2 (by omega)

/-! ## Claim theorems -/

theorem parseDate_ne_empty {e : String} {d : Date} (h : parseDate e = some d) : e ≠ "" := by
  intro he
  subst he
  exact Option.noConfusion h

/-- C6: every record that is not multi-day lodging — not a lodging record,
or endDay absent, or endDay equal to the start day — expands to exactly one
DisplayItem wrapping the record, with displayDay the record's own day, no
lodging phase and isVirtual false. -/
theorem C6_single_expansion (item : ItineraryItem)
    (h : item.category ≠ some Category.lodging ∨ item.endDay = none ∨
      item.endDay = some item.day) :
    expandItem item =
      [{ toItineraryItem := item
         displayDay := item.day
         lodgingPhase := none
         isVirtual := false }] := by
  have hm : isMultiDayLodging item = false := by
    unfold isMultiDayLodging
    rcases h with h | h | h
    · simp [h]
    · simp [h]
    · simp [h]
  unfold expandItem
  rw [if_neg (by simp [hm])]

def exC6 : ItineraryItem :=
  { id := "a1", type := ItemType.activity, category := some Category.food,
    day := "2024-03-10", endDay := none, time := "14:00", location := "Museum",
    notes := "", completed := false, arrivalLocation := none, arrivalTime := none,
    airline := none, flightNumber := none }

/-- Witness for C6: a concrete activity record expands to its single
non-virtual display item. -/
theorem C6_single_expansion_witness :
    expandItem exC6 =
      [{ toItineraryItem := exC6
         displayDay := "2024-03-10"
         lodgingPhase := none
         isVirtual := false }] :=
  C6_single_expansion exC6 (Or.inr (Or.inl rfl))

/-- C8: a lodging record on the multi-day expansion path whose end day is
a calendar day strictly before its start day gets an empty date
enumeration and produces no DisplayItem at all — the record disappears
from the projection instead of falling back to a single-day entry — and
the expansion of every other record is unaffected. -/
theorem C8_inverted_range (item : ItineraryItem) (e : String) (ds de : Date)
    (hcat : item.category = some Category.lodging)
    (hend : item.endDay = some e) (hne : e ≠ item.day)
    (hds : parseDate item.day = some ds) (hde : parseDate e = some de)
    (hlt : ord de < ord ds) (l1 l2 : List ItineraryItem) :
    getDatesBetween item.day e = [] ∧ expandItem item = [] ∧
      expandLodgingItems (l1 ++ item :: l2) =
        expandLodgingItems l1 ++ expandLodgingItems l2 := by
  have hdates : getDatesBetween item.day e = [] := by
    unfold getDatesBetween
    rw [hds, hde]
    have hz : ord de + 1 - ord ds = 0 := by omega
    show datesLoop (ord de + 1 - ord ds) ds de = []
    rw [hz]
    rfl
  have hmulti : isMultiDayLodging item = true := by
    unfold isMultiDayLodging
    rw [hcat, hend]
    simp [hne, parseDate_ne_empty hde]
  have hexp : expandItem item = [] := by
    unfold expandItem
    rw [if_pos hmulti, hend, Option.getD_some, hdates]
    rfl
  refine ⟨hdates, hexp, ?_⟩
  unfold expandLodgingItems
  simp [hexp]

def exC8 : ItineraryItem :=
  { id := "bad", type := ItemType.activity, category := some Category.lodging,
    day := "2024-03-10", endDay := some "2024-03-08", time := "15:00", location := "Hotel",
    notes := "", completed := false, arrivalLocation := none, arrivalTime := none,
    airline := none, flightNumber := none }

def exC8other : ItineraryItem :=
  { id := "act", type := ItemType.activity, category := some Category.nature,
    day := "2024-03-10", endDay := none, time := "09:00", location := "Park",
    notes := "", completed := false, arrivalLocation := none, arrivalTime := none,
    airline := none, flightNumber := none }

/-- Witness for C8: a concrete inverted lodging range vanishes from the
projection while its neighbours are kept. -/
theorem C8_inverted_range_witness :
    getDatesBetween exC8.day "2024-03-08" = [] ∧ expandItem exC8 = [] ∧
      expandLodgingItems ([exC8other] ++ exC8 :: []) =
        expandLodgingItems [exC8other] ++ expandLodgingItems [] :=
  C8_inverted_range exC8 "2024-03-08" ⟨2024, 3, 10⟩ ⟨2024, 3, 8⟩ rfl rfl
    (by decide) (by decide) (by decide) (by decide) [exC8other] []

/-- C3 (amended): the checkInTime of a day is the time field of the first
CheckIn item of the day when that field is nonempty; the sentinel "23:59"
is used both when no CheckIn item is present and when the CheckIn item's
time is the empty string, which the || fallback treats like an absent
time. -/
theorem C3_checkin_time (L : List DisplayItineraryItem) :
    (∀ ci, L.find? (fun it => it.lodgingPhase == some LodgingPhase.checkIn) = some ci →
      ci.time ≠ "" → dayCheckInTime L = ci.time) ∧
    (∀ ci, L.find? (fun it => it.lodgingPhase == some LodgingPhase.checkIn) = some ci →
      ci.time = "" → dayCheckInTime L = "23:59") ∧
    (L.find? (fun it => it.lodgingPhase == some LodgingPhase.checkIn) = none →
      dayCheckInTime L = "23:59") := by
  refine ⟨?_, ?_, ?_⟩
  · intro ci hfind hne
    unfold dayCheckInTime
    rw [hfind]
    show (if ci.time = "" then "23:59" else ci.time) = ci.time
    rw [if_neg hne]
  · intro ci hfind he
    unfold dayCheckInTime
    rw [hfind]
    show (if ci.time = "" then "23:59" else ci.time) = "23:59"
    rw [if_pos he]
  · intro hfind
    unfold dayCheckInTime
    rw [hfind]

def exC3 : DisplayItineraryItem :=
  { id := "ci", type := ItemType.activity, category := some Category.lodging,
    day := "2024-03-10", endDay := some "2024-03-12", time := "", location := "Hotel",
    notes := "", completed := false, arrivalLocation := none, arrivalTime := none,
    airline := none, flightNumber := none,
    lodgingPhase := some LodgingPhase.checkIn, displayDay := "2024-03-10",
    isVirtual := false }

/-- Counterexample to C3 as stated: a day whose CheckIn item has the empty
string as its time still gets the sentinel "23:59" as checkInTime, so the
checkInTime does not equal the CheckIn item's time field for every value
of that field. -/
theorem C3_counterexample :
    [exC3].find? (fun it => it.lodgingPhase == some LodgingPhase.checkIn) = some exC3 ∧
    exC3.time = "" ∧
    dayCheckInTime [exC3] = "23:59" ∧
    dayCheckInTime [exC3] ≠ exC3.time := by
  refine ⟨rfl, rfl, rfl, ?_⟩
  decide

/-- Witness for C3 (amended), on a day with a CheckIn item with a nonempty
time and on a day with no CheckIn item. -/
theorem C3_checkin_time_witness :
    dayCheckInTime [{ exC3 with time := "15:00" }] = "15:00" ∧
      dayCheckInTime [] = "23:59" :=
  ⟨(C3_checkin_time [{ exC3 with time := "15:00" }]).1 { exC3 with time := "15:00" } rfl
      (by decide),
    (C3_checkin_time []).2.2 rfl⟩

theorem get_range_map {β : Type} (N : Nat) (f : Nat → β) (j : Nat)
    (h : j < ((List.range N).map f).length) : ((List.range N).map f).get ⟨j, h⟩ = f j := by
  simp

/-- C1 (amended): a lodging record whose endDay is present, differs from
its start day, and spans N calendar days with N at least 2, expands to
exactly N DisplayItems, one per calendar day from the start date through
the end date inclusive; in calendar order the phases are CheckIn, then
N - 2 Staying, then CheckOut, and only the first item (the CheckIn) has
isVirtual false. The j-th display day is formatLocalDate of the j-th
calendar day after the start date — the canonical rendering of that date,
which coincides with the startDay string for j = 0 exactly when that
string carries no leading zero in the year (the amendment the
counterexample forces: getFullYear is rendered unpadded). -/
theorem C1_multiday_expansion (item : ItineraryItem) (e : String) (ds de : Date) (N : Nat)
    (hcat : item.category = some Category.lodging)
    (hend : item.endDay = some e)
    (hne : e ≠ item.day)
    (hds : parseDate item.day = some ds)
    (hde : parseDate e = some de)
    (hN : N = ord de + 1 - ord ds)
    (h2 : 2 ≤ N) :
    (expandItem item).length = N ∧
    nextDay^[N - 1] ds = de ∧
    ∀ (j : Nat) (hj : j < (expandItem item).length),
      ((expandItem item).get ⟨j, hj⟩).displayDay = formatLocalDate (nextDay^[j] ds) ∧
      ((expandItem item).get ⟨j, hj⟩).lodgingPhase =
        some (if j = 0 then LodgingPhase.checkIn
          else if j = N - 1 then LodgingPhase.checkOut else LodgingPhase.staying) ∧
      ((expandItem item).get ⟨j, hj⟩).isVirtual = (j != 0) ∧
      ((expandItem item).get ⟨j, hj⟩).toItineraryItem = item := by
  have hmulti : isMultiDayLodging item = true := by
    unfold isMultiDayLodging
    rw [hcat, hend]
    simp [hne, parseDate_ne_empty hde]
  have hvds := parseDate_valid hds
  have hvde := parseDate_valid hde
  have hgd : getDatesBetween item.day e =
      (List.range N).map (fun i => formatLocalDate (nextDay^[i] ds)) := by
    rw [getDatesBetween_eq hds hde, hN]
  have hexp : expandItem item =
      stayItems item (getDatesBetween item.day e).length 0 (getDatesBetween item.day e) := by
    unfold expandItem
    rw [if_pos hmulti, hend, Option.getD_some]
  have hlen2 : (expandItem item).length = N := by
    rw [hexp, stayItems_length, hgd, List.length_map, List.length_range]
  refine ⟨hlen2, ?_, ?_⟩
  · have hspan : ord de - ord ds = N - 1 := by omega
    have hreach := iterate_nextDay_reaches hvds hvde (by omega)
    rw [hspan] at hreach
    exact hreach
  · rw [hexp, hgd, List.length_map, List.length_range]
    intro j hj
    rw [stayItems_get item N 0 ((List.range N).map (fun i => formatLocalDate (nextDay^[i] ds)))
      j hj]
    refine ⟨?_, ?_, ?_, ?_⟩
    · exact get_range_map N _ j _
    · simp
    · simp
    · rfl

def exC1 : ItineraryItem :=
  { id := "old", type := ItemType.activity, category := some Category.lodging,
    day := "0099-01-01", endDay := some "0099-01-02", time := "15:00", location := "Inn",
    notes := "", completed := false, arrivalLocation := none, arrivalTime := none,
    airline := none, flightNumber := none }

/-- Counterexample to C1 as stated: a two-day lodging record whose ISO
start day has a year written with leading zeros ("0099-01-01", which the
Date constructor accepts) satisfies every hypothesis of the claim, yet
the first emitted DisplayItem has displayDay "99-01-01" — the template
literal renders getFullYear without padding — so no emitted item, the
CheckIn included, has displayDay equal to startDay. -/
theorem C1_counterexample :
    exC1.category = some Category.lodging ∧
    exC1.endDay = some "0099-01-02" ∧ "0099-01-02" ≠ exC1.day ∧
    (expandItem exC1).length = 2 ∧
    (expandItem exC1).map (fun d => d.displayDay) = ["99-01-01", "99-01-02"] ∧
    ∀ d ∈ expandItem exC1, d.displayDay ≠ exC1.day := by
  refine ⟨rfl, rfl, by decide, rfl, rfl, ?_⟩
  decide

def exC1good : ItineraryItem :=
  { id := "stay", type := ItemType.activity, category := some Category.lodging,
    day := "2024-03-10", endDay := some "2024-03-13", time := "15:00", location := "Hotel",
    notes := "", completed := false, arrivalLocation := none, arrivalTime := none,
    airline := none, flightNumber := none }

/-- Witness for C1 (amended) on the four-day stay of the specification
scenario. -/
theorem C1_multiday_expansion_witness :
    (expandItem exC1good).length = 4 ∧
      nextDay^[3] (⟨2024, 3, 10⟩ : Date) = (⟨2024, 3, 13⟩ : Date) :=
  ⟨(C1_multiday_expansion exC1good "2024-03-13" ⟨2024, 3, 10⟩ ⟨2024, 3, 13⟩ 4
      rfl rfl (by decide) (by decide) (by decide) (by decide) (by decide)).1,
    (C1_multiday_expansion exC1good "2024-03-13" ⟨2024, 3, 10⟩ ⟨2024, 3, 13⟩ 4
      rfl rfl (by decide) (by decide) (by decide) (by decide) (by decide)).2.1⟩

theorem prio_checkOut (ct : String) (it : DisplayItineraryItem)
    (hph : it.lodgingPhase = some LodgingPhase.checkOut) : getSortPriority ct it = 0 := by
  unfold getSortPriority
  rw [if_pos hph]

theorem prio_checkIn (ct : String) (it : DisplayItineraryItem)
    (hph : it.lodgingPhase = some LodgingPhase.checkIn) (hnf : it.type ≠ ItemType.flight) :
    getSortPriority ct it = 2 := by
  unfold getSortPriority
  rw [if_neg (by simp [hph]), if_neg (by simp [hnf]), if_pos hph]

theorem prio_staying (ct : String) (it : DisplayItineraryItem)
    (hph : it.lodgingPhase = some LodgingPhase.staying) (hnf : it.type ≠ ItemType.flight) :
    getSortPriority ct it = 4 := by
  unfold getSortPriority
  rw [if_neg (by simp [hph]), if_neg (by simp [hnf]), if_neg (by simp [hph]), if_pos hph]

theorem prio_flight (ct : String) (it : DisplayItineraryItem)
    (hfl : it.type = ItemType.flight) (hph : it.lodgingPhase = none) :
    getSortPriority ct it =
      (if strLtB (flightLanding it) ct = true then 1 else 3) := by
  unfold getSortPriority
  rw [if_neg (by simp [hph])]
  by_cases hl : strLtB (flightLanding it) ct = true
  · rw [if_pos hl, if_pos ⟨hfl, hl⟩]
  · rw [if_neg hl, if_neg (by simp [hl]), if_neg (by simp [hph]), if_neg (by simp [hph])]

/-- C4: in every day's sorted list, whatever the time and arrivalTime
fields are, every CheckOut item comes before every CheckIn item, and
every CheckIn item comes before every Staying item (under the data-model
invariant that lodging-phase items are not flights — the phase only ever
comes from lodging records). -/
theorem C4_phase_order (L : List DisplayItineraryItem)
    (hwf : ∀ it ∈ L, it.type = ItemType.flight → it.lodgingPhase = none)
    (i j : Nat) (hi : i < (sortDayItems L).length) (hj : j < (sortDayItems L).length) :
    (((sortDayItems L).get ⟨i, hi⟩).lodgingPhase = some LodgingPhase.checkOut →
      ((sortDayItems L).get ⟨j, hj⟩).lodgingPhase = some LodgingPhase.checkIn → i < j) ∧
    (((sortDayItems L).get ⟨i, hi⟩).lodgingPhase = some LodgingPhase.checkIn →
      ((sortDayItems L).get ⟨j, hj⟩).lodgingPhase = some LodgingPhase.staying → i < j) := by
  have hmemi : (sortDayItems L).get ⟨i, hi⟩ ∈ L :=
    (sortDayItems_perm L).mem_iff.mp (List.get_mem _ _ _)
  have hmemj : (sortDayItems L).get ⟨j, hj⟩ ∈ L :=
    (sortDayItems_perm L).mem_iff.mp (List.get_mem _ _ _)
  constructor
  · intro hco hci
    have hnfj : ((sortDayItems L).get ⟨j, hj⟩).type ≠ ItemType.flight := by
      intro hfl
      rw [hwf _ hmemj hfl] at hci
      exact Option.noConfusion hci
    apply sortDayItems_index_lt L i j hi hj
    rw [prio_checkOut _ _ hco, prio_checkIn _ _ hci hnfj]
    omega
  · intro hci hst
    have hnfi : ((sortDayItems L).get ⟨i, hi⟩).type ≠ ItemType.flight := by
      intro hfl
      rw [hwf _ hmemi hfl] at hci
      exact Option.noConfusion hci
    have hnfj : ((sortDayItems L).get ⟨j, hj⟩).type ≠ ItemType.flight := by
      intro hfl
      rw [hwf _ hmemj hfl] at hst
      exact Option.noConfusion hst
    apply sortDayItems_index_lt L i j hi hj
    rw [prio_checkIn _ _ hci hnfi, prio_staying _ _ hst hnfj]
    omega

/-- C2: within one day's sorted list, a flight landing (arrivalTime with
fallback to time) strictly before the day's check-in time is in bucket 1
and placed before every CheckIn item, and a flight landing at or after the
check-in time is in bucket 3 and placed after every CheckIn item (under
the data-model invariant that flights carry no lodging phase). -/
theorem C2_flight_vs_checkin (L : List DisplayItineraryItem)
    (hwf : ∀ it ∈ L, it.type = ItemType.flight → it.lodgingPhase = none)
    (i j : Nat) (hi : i < (sortDayItems L).length) (hj : j < (sortDayItems L).length)
    (hfl : ((sortDayItems L).get ⟨i, hi⟩).type = ItemType.flight)
    (hci : ((sortDayItems L).get ⟨j, hj⟩).lodgingPhase = some LodgingPhase.checkIn) :
    (strLtB (flightLanding ((sortDayItems L).get ⟨i, hi⟩)) (dayCheckInTime L) = true →
      getSortPriority (dayCheckInTime L) ((sortDayItems L).get ⟨i, hi⟩) = 1 ∧ i < j) ∧
    (strLtB (flightLanding ((sortDayItems L).get ⟨i, hi⟩)) (dayCheckInTime L) = false →
      getSortPriority (dayCheckInTime L) ((sortDayItems L).get ⟨i, hi⟩) = 3 ∧ j < i) := by
  have hmemi : (sortDayItems L).get ⟨i, hi⟩ ∈ L :=
    (sortDayItems_perm L).mem_iff.mp (List.get_mem _ _ _)
  have hmemj : (sortDayItems L).get ⟨j, hj⟩ ∈ L :=
    (sortDayItems_perm L).mem_iff.mp (List.get_mem _ _ _)
  have hphi : ((sortDayItems L).get ⟨i, hi⟩).lodgingPhase = none := hwf _ hmemi hfl
  have hnfj : ((sortDayItems L).get ⟨j, hj⟩).type ≠ ItemType.flight := by
    intro hflj
    rw [hwf _ hmemj hflj] at hci
    exact Option.noConfusion hci
  have hpj : getSortPriority (dayCheckInTime L) ((sortDayItems L).get ⟨j, hj⟩) = 2 :=
    prio_checkIn _ _ hci hnfj
  have hpi := prio_flight (dayCheckInTime L) _ hfl hphi
  constructor
  · intro hland
    rw [if_pos hland] at hpi
    refine ⟨hpi, ?_⟩
    apply sortDayItems_index_lt L i j hi hj
    omega
  · intro hland
    rw [if_neg (by rw [hland]; exact Bool.false_ne_true)] at hpi
    refine ⟨hpi, ?_⟩
    apply sortDayItems_index_lt L j i hj hi
    omega

theorem strLtB_empty_left {s : String} (h : s ≠ "") : strLtB "" s = true := by
  unfold strLtB
  cases hs : s.data with
  | nil => exact absurd (string_eq_of_data_eq (by rw [hs])) h
  | cons c cs => rfl

theorem eq_empty_of_strLeB_empty {x : String} (h : strLeB x "" = true) : x = "" := by
  by_contra hne
  have := strLtB_empty_left hne
  simp [strLeB, this] at h

theorem dayCheckInTime_ne_empty (L : List DisplayItineraryItem) : dayCheckInTime L ≠ "" := by
  unfold dayCheckInTime
  cases hf : L.find? (fun it => it.lodgingPhase == some LodgingPhase.checkIn) with
  | none => decide
  | some ci =>
    show (if ci.time = "" then "23:59" else ci.time) ≠ ""
    by_cases ht : ci.time = ""
    · rw [if_pos ht]
      decide
    · rw [if_neg ht]
      exact ht

/-- C5: within one day the sort is stable by (bucket, effective time):
the output is a permutation of the bucket, items of equal priority are in
ascending lexical order of effective time (arrivalTime with fallback to
time for flights, time otherwise), untimed items of a bucket all precede
the timed ones, and the sublist of items with any fixed (priority,
effective time) key keeps the original input order. -/
theorem C5_stable_time_sort (L : List DisplayItineraryItem) :
    (sortDayItems L).Perm L ∧
    (∀ (i j : Nat) (hi : i < (sortDayItems L).length) (hj : j < (sortDayItems L).length),
      i < j →
      getSortPriority (dayCheckInTime L) ((sortDayItems L).get ⟨i, hi⟩) =
        getSortPriority (dayCheckInTime L) ((sortDayItems L).get ⟨j, hj⟩) →
      strLeB (effTime ((sortDayItems L).get ⟨i, hi⟩))
        (effTime ((sortDayItems L).get ⟨j, hj⟩)) = true) ∧
    (∀ (i j : Nat) (hi : i < (sortDayItems L).length) (hj : j < (sortDayItems L).length),
      i < j →
      getSortPriority (dayCheckInTime L) ((sortDayItems L).get ⟨i, hi⟩) =
        getSortPriority (dayCheckInTime L) ((sortDayItems L).get ⟨j, hj⟩) →
      effTime ((sortDayItems L).get ⟨j, hj⟩) = "" →
      effTime ((sortDayItems L).get ⟨i, hi⟩) = "") ∧
    (∀ (p : Nat) (t : String),
      (sortDayItems L).filter
          (fun it => getSortPriority (dayCheckInTime L) it == p && effTime it == t) =
        L.filter
          (fun it => getSortPriority (dayCheckInTime L) it == p && effTime it == t)) := by
  have hs := sortDayItems_sorted L
  rw [List.Sorted, List.pairwise_iff_get] at hs
  have hasc : ∀ (i j : Nat) (hi : i < (sortDayItems L).length)
      (hj : j < (sortDayItems L).length), i < j →
      getSortPriority (dayCheckInTime L) ((sortDayItems L).get ⟨i, hi⟩) =
        getSortPriority (dayCheckInTime L) ((sortDayItems L).get ⟨j, hj⟩) →
      strLeB (effTime ((sortDayItems L).get ⟨i, hi⟩))
        (effTime ((sortDayItems L).get ⟨j, hj⟩)) = true := by
    intro i j hi hj hij hpeq
    rcases hs ⟨i, hi⟩ ⟨j, hj⟩ hij with h | ⟨_, ht⟩
    · omega
    · exact ht
  refine ⟨sortDayItems_perm L, hasc, ?_, ?_⟩
  · intro i j hi hj hij hpeq hje
    have := hasc i j hi hj hij hpeq
    rw [hje] at this
    exact eq_empty_of_strLeB_empty this
  · intro p t
    exact filter_insertionSort _ _
      (fun a b ha hb => by
        simp only [Bool.and_eq_true, beq_iff_eq] at ha hb
        exact Or.inr ⟨ha.1.trans hb.1.symm, by rw [ha.2, hb.2]; exact strLeB_refl t⟩) L

/-- C10: on a day that has a CheckIn item, the check-in time is never the
empty string (it is either the item's nonempty time or the sentinel), so
a flight whose arrivalTime and time are both empty strings has effective
landing time "" which is lexically strictly below the check-in time: it
is assigned bucket 1 and placed before every CheckIn item of the day
(under the data-model invariant that flights carry no lodging phase). -/
theorem C10_untimed_flight (L : List DisplayItineraryItem)
    (hwf : ∀ it ∈ L, it.type = ItemType.flight → it.lodgingPhase = none)
    (hci : (L.find? (fun it => it.lodgingPhase == some LodgingPhase.checkIn)).isSome)
    (i : Nat) (hi : i < (sortDayItems L).length)
    (hfl : ((sortDayItems L).get ⟨i, hi⟩).type = ItemType.flight)
    (harr : ((sortDayItems L).get ⟨i, hi⟩).arrivalTime = some "")
    (htime : ((sortDayItems L).get ⟨i, hi⟩).time = "") :
    dayCheckInTime L ≠ "" ∧
    getSortPriority (dayCheckInTime L) ((sortDayItems L).get ⟨i, hi⟩) = 1 ∧
    ∀ (j : Nat) (hj : j < (sortDayItems L).length),
      ((sortDayItems L).get ⟨j, hj⟩).lodgingPhase = some LodgingPhase.checkIn → i < j := by
  have hmemi : (sortDayItems L).get ⟨i, hi⟩ ∈ L :=
    (sortDayItems_perm L).mem_iff.mp (List.get_mem _ _ _)
  have hphi : ((sortDayItems L).get ⟨i, hi⟩).lodgingPhase = none := hwf _ hmemi hfl
  have hlanding : flightLanding ((sortDayItems L).get ⟨i, hi⟩) = "" := by
    unfold flightLanding jsOr
    rw [harr, htime]
    rfl
  have hctne := dayCheckInTime_ne_empty L
  have hp1 : getSortPriority (dayCheckInTime L) ((sortDayItems L).get ⟨i, hi⟩) = 1 := by
    rw [prio_flight _ _ hfl hphi, hlanding, if_pos (strLtB_empty_left hctne)]
  refine ⟨hctne, hp1, ?_⟩
  intro j hj hcij
  have hmemj : (sortDayItems L).get ⟨j, hj⟩ ∈ L :=
    (sortDayItems_perm L).mem_iff.mp (List.get_mem _ _ _)
  have hnfj : ((sortDayItems L).get ⟨j, hj⟩).type ≠ ItemType.flight := by
    intro hflj
    rw [hwf _ hmemj hflj] at hcij
    exact Option.noConfusion hcij
  apply sortDayItems_index_lt L i j hi hj
  rw [hp1, prio_checkIn _ _ hcij hnfj]
  omega

/-- C7: the grouping partitions the expanded DisplayItem sequence: every
bucket holds exactly the items whose displayDay is its key, the
concatenation of the buckets is a permutation of the expansion, the keys
are distinct and are exactly the displayDay values present, no bucket is
empty, and the returned day list is those keys in strictly ascending
lexical order. -/
theorem C7_grouping_partition (items : List ItineraryItem) :
    (∀ p ∈ groupByDay (expandLodgingItems items), ∀ x ∈ p.2, x.displayDay = p.1) ∧
    ((groupByDay (expandLodgingItems items)).flatMap Prod.snd).Perm
      (expandLodgingItems items) ∧
    ((groupByDay (expandLodgingItems items)).map Prod.fst).Nodup ∧
    (∀ k : String, k ∈ (groupByDay (expandLodgingItems items)).map Prod.fst ↔
      k ∈ (expandLodgingItems items).map (fun it => it.displayDay)) ∧
    (∀ p ∈ groupByDay (expandLodgingItems items), p.2 ≠ []) ∧
    (sortedDays items).Perm ((groupByDay (expandLodgingItems items)).map Prod.fst) ∧
    List.Pairwise (fun a b => strLtB a b = true) (sortedDays items) :=
  ⟨groupByDay_keyed _, groupByDay_flat _, groupByDay_nodup_keys _,
    fun k => groupByDay_mem_keys k _, groupByDay_nonempty _,
    sortedDays_perm items, sortedDays_strict items⟩

def exC7 : ItineraryItem :=
  { id := "w7", type := ItemType.activity, category := some Category.lodging,
    day := "2024-05-01", endDay := some "2024-05-02", time := "12:00", location := "Hostel",
    notes := "", completed := false, arrivalLocation := none, arrivalTime := none,
    airline := none, flightNumber := none }

/-- Witness for C7 on a concrete two-day lodging record: its check-out
day is a key of the grouping, and the sorted day list is a permutation of
the keys. -/
theorem C7_grouping_partition_witness :
    ("2024-05-02" ∈ (groupByDay (expandLodgingItems [exC7])).map Prod.fst ↔
      "2024-05-02" ∈ (expandLodgingItems [exC7]).map (fun it => it.displayDay)) ∧
    (sortedDays [exC7]).Perm ((groupByDay (expandLodgingItems [exC7])).map Prod.fst) :=
  ⟨(C7_grouping_partition [exC7]).2.2.2.1 "2024-05-02",
    (C7_grouping_partition [exC7]).2.2.2.2.2.1⟩

/-- C9: the completed flag never influences the projection: two record
lists that agree after that flag is cleared produce the same day list
and, day by day, the same records (identified by id and displayDay) in
the same order. -/
theorem C9_completed_noninterference (l1 l2 : List ItineraryItem)
    (h : l1.map eraseCompleted = l2.map eraseCompleted) :
    sortedDays l1 = sortedDays l2 ∧
    (itemsByDay l1).map (fun p => (p.1, p.2.map (fun it => (it.id, it.displayDay)))) =
      (itemsByDay l2).map (fun p => (p.1, p.2.map (fun it => (it.id, it.displayDay)))) := by
  have key : ∀ l : List ItineraryItem,
      (itemsByDay (l.map eraseCompleted)).map
          (fun p => (p.1, p.2.map (fun it => (it.id, it.displayDay)))) =
        (itemsByDay l).map
          (fun p => (p.1, p.2.map (fun it => (it.id, it.displayDay)))) := by
    intro l
    rw [itemsByDay_erase, List.map_map]
    refine List.map_congr_left ?_
    intro p _
    show (p.1, (p.2.map eraseCompletedD).map (fun it => (it.id, it.displayDay))) =
      (p.1, p.2.map (fun it => (it.id, it.displayDay)))
    rw [List.map_map]
    rfl
  constructor
  · rw [← sortedDays_erase l1, ← sortedDays_erase l2, h]
  · rw [← key l1, ← key l2, h]

def exC9a : ItineraryItem :=
  { id := "t1", type := ItemType.activity, category := some Category.food,
    day := "2024-06-01", endDay := none, time := "10:00", location := "Cafe",
    notes := "", completed := false, arrivalLocation := none, arrivalTime := none,
    airline := none, flightNumber := none }

/-- Witness for C9: toggling the completed flag of a concrete record
changes neither the day list nor the per-day (id, displayDay) sequences. -/
theorem C9_completed_noninterference_witness :
    sortedDays [exC9a] = sortedDays [{ exC9a with completed := true }] ∧
    (itemsByDay [exC9a]).map (fun p => (p.1, p.2.map (fun it => (it.id, it.displayDay)))) =
      (itemsByDay [{ exC9a with completed := true }]).map
        (fun p => (p.1, p.2.map (fun it => (it.id, it.displayDay)))) :=
  C9_completed_noninterference [exC9a] [{ exC9a with completed := true }] (by decide)

def exC2ci : DisplayItineraryItem :=
  { id := "h2", type := ItemType.activity, category := some Category.lodging,
    day := "2024-03-10", endDay := some "2024-03-12", time := "15:00", location := "Hotel",
    notes := "", completed := false, arrivalLocation := none, arrivalTime := none,
    airline := none, flightNumber := none,
    lodgingPhase := some LodgingPhase.checkIn, displayDay := "2024-03-10",
    isVirtual := false }

def exC2fl : DisplayItineraryItem :=
  { id := "f2", type := ItemType.flight, category := none,
    day := "2024-03-10", endDay := none, time := "06:00", location := "LAX",
    notes := "", completed := false, arrivalLocation := some "NRT",
    arrivalTime := some "08:00", airline := none, flightNumber := none,
    lodgingPhase := none, displayDay := "2024-03-10", isVirtual := false }

def exC2L : List DisplayItineraryItem := [exC2ci, exC2fl]

/-- Witness for C2: a concrete flight landing 08:00 before a 15:00
check-in is in bucket 1 and placed first. -/
theorem C2_flight_vs_checkin_witness :
    getSortPriority (dayCheckInTime exC2L) ((sortDayItems exC2L).get ⟨0, by decide⟩) = 1 ∧
      (0 : Nat) < 1 :=
  (C2_flight_vs_checkin exC2L (by decide) 0 1 (by decide) (by decide) (by decide)
    (by decide)).1 (by decide)

def exC4co : DisplayItineraryItem :=
  { id := "h4o", type := ItemType.activity, category := some Category.lodging,
    day := "2024-03-08", endDay := some "2024-03-10", time := "", location := "Old hotel",
    notes := "", completed := false, arrivalLocation := none, arrivalTime := none,
    airline := none, flightNumber := none,
    lodgingPhase := some LodgingPhase.checkOut, displayDay := "2024-03-10",
    isVirtual := true }

def exC4ci : DisplayItineraryItem :=
  { id := "h4i", type := ItemType.activity, category := some Category.lodging,
    day := "2024-03-10", endDay := some "2024-03-12", time := "15:00", location := "New hotel",
    notes := "", completed := false, arrivalLocation := none, arrivalTime := none,
    airline := none, flightNumber := none,
    lodgingPhase := some LodgingPhase.checkIn, displayDay := "2024-03-10",
    isVirtual := false }

def exC4st : DisplayItineraryItem :=
  { id := "h4s", type := ItemType.activity, category := some Category.lodging,
    day := "2024-03-09", endDay := some "2024-03-11", time := "", location := "Third hotel",
    notes := "", completed := false, arrivalLocation := none, arrivalTime := none,
    airline := none, flightNumber := none,
    lodgingPhase := some LodgingPhase.staying, displayDay := "2024-03-10",
    isVirtual := true }

def exC4L : List DisplayItineraryItem := [exC4ci, exC4st, exC4co]

/-- Witness for C4 on a concrete day holding a CheckOut, a CheckIn and a
Staying item: the sorted positions are CheckOut, CheckIn, Staying. -/
theorem C4_phase_order_witness :
    ((sortDayItems exC4L).get ⟨0, by decide⟩).lodgingPhase = some LodgingPhase.checkOut ∧
    ((sortDayItems exC4L).get ⟨1, by decide⟩).lodgingPhase = some LodgingPhase.checkIn ∧
    ((sortDayItems exC4L).get ⟨2, by decide⟩).lodgingPhase = some LodgingPhase.staying ∧
    (0 : Nat) < 1 ∧ (1 : Nat) < 2 :=
  ⟨by decide, by decide, by decide,
    (C4_phase_order exC4L (by decide) 0 1 (by decide) (by decide)).1 (by decide) (by decide),
    (C4_phase_order exC4L (by decide) 1 2 (by decide) (by decide)).2 (by decide) (by decide)⟩

def exC5a : DisplayItineraryItem :=
  { id := "a5", type := ItemType.activity, category := some Category.food,
    day := "2024-03-10", endDay := none, time := "09:00", location := "Breakfast",
    notes := "", completed := false, arrivalLocation := none, arrivalTime := none,
    airline := none, flightNumber := none,
    lodgingPhase := none, displayDay := "2024-03-10", isVirtual := false }

def exC5b : DisplayItineraryItem :=
  { id := "b5", type := ItemType.activity, category := some Category.shopping,
    day := "2024-03-10", endDay := none, time := "10:00", location := "Market",
    notes := "", completed := false, arrivalLocation := none, arrivalTime := none,
    airline := none, flightNumber := none,
    lodgingPhase := none, displayDay := "2024-03-10", isVirtual := false }

def exC5L : List DisplayItineraryItem := [exC5a, exC5b]

/-- Witness for C5 on a concrete day of two same-bucket activities:
ascending effective times in the output, and the filter at their key is
unchanged by the sort. -/
theorem C5_stable_time_sort_witness :
    strLeB (effTime ((sortDayItems exC5L).get ⟨0, by decide⟩))
      (effTime ((sortDayItems exC5L).get ⟨1, by decide⟩)) = true ∧
    (sortDayItems exC5L).filter
        (fun it => getSortPriority (dayCheckInTime exC5L) it == 3 && effTime it == "10:00") =
      exC5L.filter
        (fun it => getSortPriority (dayCheckInTime exC5L) it == 3 && effTime it == "10:00") :=
  ⟨(C5_stable_time_sort exC5L).2.1 0 1 (by decide) (by decide) (by decide) (by decide),
    (C5_stable_time_sort exC5L).2.2.2 3 "10:00"⟩

def exC10ci : DisplayItineraryItem :=
  { id := "hX", type := ItemType.activity, category := some Category.lodging,
    day := "2024-03-10", endDay := some "2024-03-12", time := "15:00", location := "Hotel",
    notes := "", completed := false, arrivalLocation := none, arrivalTime := none,
    airline := none, flightNumber := none,
    lodgingPhase := some LodgingPhase.checkIn, displayDay := "2024-03-10",
    isVirtual := false }

def exC10fl : DisplayItineraryItem :=
  { id := "fX", type := ItemType.flight, category := none,
    day := "2024-03-10", endDay := none, time := "", location := "SFO",
    notes := "", completed := false, arrivalLocation := some "HND",
    arrivalTime := some "", airline := none, flightNumber := none,
    lodgingPhase := none, displayDay := "2024-03-10", isVirtual := false }

def exC10L : List DisplayItineraryItem := [exC10ci, exC10fl]

/-- Witness for C10: a concrete flight with empty arrivalTime and time on
a day with a 15:00 check-in is assigned bucket 1. -/
theorem C10_untimed_flight_witness :
    dayCheckInTime exC10L ≠ "" ∧
    getSortPriority (dayCheckInTime exC10L) ((sortDayItems exC10L).get ⟨0, by decide⟩) = 1 :=
  ⟨(C10_untimed_flight exC10L (by decide) (by decide) 0 (by decide) (by decide) (by decide)
      (by decide)).1,
    (C10_untimed_flight exC10L (by decide) (by decide) 0 (by decide) (by decide) (by decide)
      (by decide)).2.1⟩

end TravelSync
